import Mathlib

/-
  Verification development for gh-mirror (src/src/main.rs), a tool that
  mirrors all GitHub repositories of a user to local bare mirror clones.

  Shallow embedding: the external collaborators (the gh subprocess, the git
  subprocess, the serde_json deserializer, the filesystem) are modelled as
  explicit oracle inputs; the control flow of the Rust functions
  get_repositories, git_clone, git_update and main is translated directly.
-/

namespace GhMirror

/-- A filesystem path, modelled as the list of its components.
Rust `path.join(c)` becomes list append of one component. -/
abbrev Path : Type := List String

/-- Mirrors `struct Repository { name, ssh_url }` (derive Deserialize),
the projection of one repository object from the listing JSON. -/
structure Repository where
  name : String
  ssh_url : String
deriving DecidableEq, Repr

/-- Mirrors `struct Error { message, documentation_url }`, the structured
GitHub API error object. -/
structure Error where
  message : String
  documentation_url : Option String
deriving DecidableEq, Repr

/-- The root cause of an `anyhow::Error` in this program: an io error from
spawning or waiting on a subprocess, a structured GitHub error, or a
serde_json parse error (parse errors are kept abstract as their message). -/
inductive ErrCause where
  | io (msg : String)
  | github (e : Error)
  | parse (msg : String)
deriving DecidableEq, Repr

/-- An `anyhow::Error`: a root cause wrapped in a stack of context strings,
outermost context first, as produced by `.context(...)`. -/
structure AnyhowError where
  contexts : List String
  cause : ErrCause
deriving DecidableEq, Repr

/-- Debug formatting of the `Option<&str>` user argument, as produced by
the Rust formatter `{user:?}` (assuming the name needs no escaping). -/
def userDebug : Option String → String
  | none => "None"
  | some u => "Some(\"" ++ u ++ "\")"

/-- Debug formatting of a Repository, as produced by the derived Debug
implementation via `{repo:?}` (assuming fields need no escaping). -/
def repoDebug (r : Repository) : String :=
  "Repository \x7b name: \"" ++ r.name ++ "\", ssh_url: \"" ++ r.ssh_url ++ "\" \x7d"

/-- The outcome of running `gh api --paginate` and capturing its output.
The stdout byte stream itself is abstracted by the results of the two
serde_json deserializations the code applies to it:
`pagesParse` is the sequence produced by
`Deserializer::from_slice(..).into_iter::<Vec<Repository>>()`
(one entry per concatenated JSON document, each a parsed page or a parse
error), and `errorParse` is the result of
`serde_json::from_slice::<Error>(..)` on the same bytes. -/
structure GhApiResult where
  statusSuccess : Bool
  pagesParse : List (Except String (List Repository))
  errorParse : Except String Error

/-- Collecting an iterator of per-page parse results into
`anyhow::Result<Vec<Vec<Repository>>>`: stops at the first parse error,
otherwise returns all pages in order. -/
def collectPages : List (Except String (List Repository)) →
    Except String (List (List Repository))
  | [] => .ok []
  | .error e :: _ => .error e
  | .ok p :: rest => (collectPages rest).map (fun ps => p :: ps)

/-- Mirrors `fn get_repositories(user: Option<&str>)`.
The `run_gh` argument is the oracle for the `gh api --paginate` subprocess:
an io error when the command could not be run, otherwise its exit status
and captured stdout (abstracted as the two parses, see GhApiResult).
On success the code collects every page eagerly and returns the
flattened list of repositories. -/
def get_repositories (user : Option String) (run_gh : Except String GhApiResult) :
    Except AnyhowError (List Repository) :=
  match run_gh with
  | .error ioe => .error ⟨["failed to run gh api"], .io ioe⟩
  | .ok out =>
    if !out.statusSuccess then
      match out.errorParse with
      | .ok e =>
        .error ⟨["failed to list repositories for user " ++ userDebug user], .github e⟩
      | .error pe =>
        .error ⟨["failed to list repositories for user " ++ userDebug user,
                 "failed to deserialize error"], .parse pe⟩
    else
      match collectPages out.pagesParse with
      | .error pe => .error ⟨["failed to deserialize repos json"], .parse pe⟩
      | .ok pages => .ok pages.flatten

/-- The fixed pre-receive hook script written into every new mirror. -/
def hookScript : String :=
  "#!/bin/sh\n\necho \"Pushing to this repository is forbidden.\"\necho \"This is a mirror of a GitHub repository. Push there instead.\"\nexit 1\n"

/-- Oracle for the external effects performed by git_clone, in program
order: the result of `Command::status()` for `git clone --mirror`
(io error, or exit-status success flag — note the flag is data the code
may or may not inspect), then the io results of creating the hook file,
writing its content, reading its metadata (yielding the permission mode
bits the filesystem assigned at creation), and setting its permissions. -/
structure CloneEnv where
  gitCloneStatus : Except String Bool
  createHook : Except String Unit
  writeHook : Except String Unit
  hookMetadataMode : Except String Nat
  setPermissions : Except String Unit

/-- Observable result of a successful git_clone: where the hook file was
written, the bytes written into it, and the permission mode it was left
with by `set_permissions`. -/
structure CloneResult where
  hookPath : Path
  hookContent : String
  hookMode : Nat
deriving DecidableEq, Repr

/-- Mirrors `fn git_clone(path: &Path, url: &str)`.
Faithful to the source: the `ExitStatus` value returned by `.status()` is
dropped on the floor — only an io error (failure to spawn or wait) makes
the clone step fail. Then the hook file is created, written, and marked
executable by or-ing 0o111 into the mode read from its metadata; each of
those io steps aborts the operation on failure, with the context string
the source attaches (the bare `metadata()?` attaches none). -/
def git_clone (path : Path) (url : String) (env : CloneEnv) :
    Except AnyhowError CloneResult :=
  match env.gitCloneStatus with
  | .error ioe => .error ⟨["failed to git clone " ++ url], .io ioe⟩
  | .ok _exitSuccess =>
    match env.createHook with
    | .error e => .error ⟨["failed to create hooks/pre-receive"], .io e⟩
    | .ok _ =>
      match env.writeHook with
      | .error e => .error ⟨["failed to write hooks/pre-receive"], .io e⟩
      | .ok _ =>
        match env.hookMetadataMode with
        | .error e => .error ⟨[], .io e⟩
        | .ok mode =>
          match env.setPermissions with
          | .error e => .error ⟨["failed to set permissions on hooks/pre-receive"], .io e⟩
          | .ok _ =>
            .ok { hookPath := path ++ ["hooks", "pre-receive"],
                  hookContent := hookScript,
                  hookMode := mode ||| 0o111 }

/-- Oracle for the external effect of git_update: the result of
`Command::status()` for `git -C path remote update --prune`. -/
structure UpdateEnv where
  gitUpdateStatus : Except String Bool

/-- Debug formatting of a path, as produced by `{path:?}` (assuming the
components need no escaping). -/
def pathDebug (p : Path) : String :=
  "\"" ++ String.intercalate "/" p ++ "\""

/-- Mirrors `fn git_update(path: &Path)`.
Faithful to the source: the `ExitStatus` value returned by `.status()` is
dropped — only an io error makes the operation fail. -/
def git_update (path : Path) (env : UpdateEnv) : Except AnyhowError Unit :=
  match env.gitUpdateStatus with
  | .error ioe => .error ⟨["failed to git remote update " ++ pathDebug path], .io ioe⟩
  | .ok _exitSuccess => .ok ()

/-- A subprocess invocation performed by the reconciliation loop (other
than the listing call): a git clone of a url into a path, or a git remote
update of a path. Recorded when the corresponding Command is run. -/
inductive Invocation where
  | clone (path : Path) (url : String)
  | update (path : Path)
deriving DecidableEq, Repr

/-- Observable trace of a run: status lines printed to stdout (println),
diagnostic lines printed to stderr (eprintln), and the clone/update
subprocess invocations, each in emission order. -/
structure Trace where
  stdoutLines : List String
  stderrLines : List String
  invocations : List Invocation
deriving DecidableEq, Repr

/-- Mutable state threaded through the reconciliation loop: the set of
existing directories (the paths for which `path.is_dir()` is true),
and the trace so far. A successful mirror clone by the external git
subprocess creates its destination directory, so a successful git_clone
adds the destination to `dirs`; nothing else in the program mutates the
filesystem directory structure. -/
structure RunState where
  dirs : List Path
  trace : Trace
deriving DecidableEq, Repr

/-- Initial state of a run: the pre-existing directories and an empty
trace. -/
def initState (dirs : List Path) : RunState :=
  { dirs := dirs, trace := ⟨[], [], []⟩ }

/-- Configuration of one reconciliation run: the dry_run flag and the
oracles describing how the external world responds to the clone and
update invocations for each repository during this run. -/
structure RunCfg where
  dryRun : Bool
  cloneEnv : Repository → CloneEnv
  updateEnv : Repository → UpdateEnv

/-- The local path of a repository: `root.join(&repo.name)`. -/
def repoPath (root : Path) (r : Repository) : Path := root ++ [r.name]

/-- One iteration of the for-loop in `main`, for descriptor `r`:
print the descriptor to stderr when dry_run; then if root/name is an
existing directory print "updating name" and (unless dry_run) run
git_update, else print "cloning name" and (unless dry_run) run git_clone.
Returns the updated state and the error of the iteration, if any. -/
def processRepo (cfg : RunCfg) (root : Path) (st : RunState) (r : Repository) :
    RunState × Option AnyhowError :=
  let st1 : RunState :=
    if cfg.dryRun then
      { st with trace.stderrLines := st.trace.stderrLines ++ [repoDebug r] }
    else st
  let path := repoPath root r
  if path ∈ st1.dirs then
    let st2 : RunState :=
      { st1 with trace.stdoutLines := st1.trace.stdoutLines ++ ["updating " ++ r.name] }
    if cfg.dryRun then (st2, none)
    else
      let st3 : RunState :=
        { st2 with trace.invocations := st2.trace.invocations ++ [.update path] }
      match git_update path (cfg.updateEnv r) with
      | .ok _ => (st3, none)
      | .error e => (st3, some e)
  else
    let st2 : RunState :=
      { st1 with trace.stdoutLines := st1.trace.stdoutLines ++ ["cloning " ++ r.name] }
    if cfg.dryRun then (st2, none)
    else
      let st3 : RunState :=
        { st2 with trace.invocations := st2.trace.invocations ++ [.clone path r.ssh_url] }
      match git_clone path r.ssh_url (cfg.cloneEnv r) with
      | .ok _res => ({ st3 with dirs := st3.dirs ++ [path] }, none)
      | .error e => (st3, some e)

/-- The for-loop of `main` over the descriptor sequence: processes the
descriptors in order and stops at the first iteration that produces an
error (the `?` operator), returning the state reached and that error. -/
def mainLoop (cfg : RunCfg) (root : Path) :
    RunState → List Repository → RunState × Option AnyhowError
  | st, [] => (st, none)
  | st, r :: rest =>
    match processRepo cfg root st r with
    | (st1, none) => mainLoop cfg root st1 rest
    | (st1, some e) => (st1, some e)

/-- Mirrors `fn main` after argument parsing: list the repositories for
the selected user, then reconcile each against the current directory.
A listing failure aborts before any descriptor is processed. -/
def main (user : Option String) (run_gh : Except String GhApiResult)
    (cfg : RunCfg) (cwd : Path) (dirs : List Path) :
    RunState × Option AnyhowError :=
  match get_repositories user run_gh with
  | .error e => (initState dirs, some e)
  | .ok repos => mainLoop cfg cwd (initState dirs) repos

/-- The process exit code determined by the result of `main` under the
anyhow runtime: 0 on Ok, 1 on Err. -/
def exitCode (e : Option AnyhowError) : Nat :=
  match e with
  | none => 0
  | some _ => 1

/-! ## Shared lemmas about the Lister -/

/-- Collecting a list of already-successful page parses succeeds and
returns the pages unchanged. -/
theorem collectPages_map_ok (pages : List (List Repository)) :
    collectPages (pages.map Except.ok) = .ok pages := by
  induction pages with
  | nil => rfl
  | cons p rest ih => simp [collectPages, ih, Except.map]

/-- If collecting the page parses succeeds, every single page parse was
successful. -/
theorem collectPages_ok_mem (ps : List (Except String (List Repository)))
    (pages : List (List Repository)) (h : collectPages ps = .ok pages) :
    ∀ p ∈ ps, p.isOk = true := by
  induction ps generalizing pages with
  | nil => simp
  | cons p rest ih =>
    intro q hq
    match p, h with
    | .ok v, h =>
      rcases List.mem_cons.mp hq with hq | hq
      · simp [hq, Except.isOk, Except.toBool]
      · simp only [collectPages] at h
        cases hrest : collectPages rest with
        | error e => rw [hrest] at h; simp [Except.map] at h
        | ok ps2 => exact ih ps2 hrest q hq

/-! ## Claim theorems for the Lister -/

/-- C1 (code bug evidence): when the version-control subprocess runs but
exits with a non-success status (here `.ok false`, meaning
`Command::status()` returned Ok with a failing ExitStatus), both git_clone
and git_update nevertheless return Ok: the source drops the ExitStatus
value of `.status()` without checking `success()`, so a non-zero git exit
does not make the operation fail, contradicting the claim. -/
theorem git_ops_ignore_nonzero_exit :
    git_clone ["root", "repo"] "git@github.com:user/repo.git"
        ⟨.ok false, .ok (), .ok (), .ok 0o644, .ok ()⟩ =
      .ok ⟨["root", "repo", "hooks", "pre-receive"], hookScript, 0o755⟩ ∧
    git_update ["root", "repo"] ⟨.ok false⟩ = .ok () :=
  ⟨rfl, rfl⟩

/-- C2: when the listing subprocess exits with a non-success status, the
captured stdout is parsed as a single error object: if that parse
succeeds, get_repositories fails with the structured GitHub error
(message and optional documentation link) under the listing context; if
the parse fails, it fails with the parse error itself (wrapped in the
deserialization and listing contexts); in both cases no repository list
is returned. -/
theorem get_repositories_error_dispatch (user : Option String) (out : GhApiResult)
    (hfail : out.statusSuccess = false) :
    (∀ e, out.errorParse = .ok e →
      get_repositories user (.ok out) =
        .error ⟨["failed to list repositories for user " ++ userDebug user],
                .github e⟩) ∧
    (∀ pe, out.errorParse = .error pe →
      get_repositories user (.ok out) =
        .error ⟨["failed to list repositories for user " ++ userDebug user,
                 "failed to deserialize error"], .parse pe⟩) ∧
    (∀ l, get_repositories user (.ok out) ≠ .ok l) := by
  refine ⟨?_, ?_, ?_⟩
  · intro e he
    simp [get_repositories, hfail, he]
  · intro pe hpe
    simp [get_repositories, hfail, hpe]
  · intro l hl
    cases he : out.errorParse <;> simp [get_repositories, hfail, he] at hl

/-- Witness for C2 at concrete inputs: a parsable error object produces
the structured GitHub failure, an unparsable stdout produces the parse
failure. -/
theorem get_repositories_error_dispatch_witness :
    get_repositories (some "alice")
        (.ok ⟨false, [], .ok ⟨"Not Found", some "https://docs.github.com"⟩⟩) =
      .error ⟨["failed to list repositories for user Some(\"alice\")"],
              .github ⟨"Not Found", some "https://docs.github.com"⟩⟩ ∧
    get_repositories (some "alice") (.ok ⟨false, [], .error "expected value"⟩) =
      .error ⟨["failed to list repositories for user Some(\"alice\")",
               "failed to deserialize error"], .parse "expected value"⟩ :=
  ⟨(get_repositories_error_dispatch (some "alice")
      ⟨false, [], .ok ⟨"Not Found", some "https://docs.github.com"⟩⟩ rfl).1
      ⟨"Not Found", some "https://docs.github.com"⟩ rfl,
   (get_repositories_error_dispatch (some "alice")
      ⟨false, [], .error "expected value"⟩ rfl).2.1 "expected value" rfl⟩

/-- C3: on a successful listing whose stdout is a concatenation of pages
that all parse, get_repositories returns exactly the concatenation of the
pages in page order with item order preserved inside each page (flatten),
and the number of descriptors is the total number of items over all
pages. -/
theorem get_repositories_yields_all_pages (user : Option String) (out : GhApiResult)
    (pages : List (List Repository))
    (hs : out.statusSuccess = true)
    (hp : out.pagesParse = pages.map Except.ok) :
    get_repositories user (.ok out) = .ok pages.flatten ∧
    pages.flatten.length = (pages.map List.length).sum := by
  constructor
  · simp [get_repositories, hs, hp, collectPages_map_ok]
  · exact List.length_flatten pages

/-- Witness for C3: three items distributed as a page of two and a page
of one yield the three descriptors in page-then-item order. -/
theorem get_repositories_yields_all_pages_witness :
    get_repositories none
        (.ok ⟨true,
              [.ok [⟨"a", "git@host:alice/a.git"⟩, ⟨"b", "git@host:alice/b.git"⟩],
               .ok [⟨"c", "git@host:alice/c.git"⟩]],
              .error "unused"⟩) =
      .ok ([[⟨"a", "git@host:alice/a.git"⟩, ⟨"b", "git@host:alice/b.git"⟩],
            [⟨"c", "git@host:alice/c.git"⟩]] : List (List Repository)).flatten ∧
    ([[⟨"a", "git@host:alice/a.git"⟩, ⟨"b", "git@host:alice/b.git"⟩],
      [⟨"c", "git@host:alice/c.git"⟩]] : List (List Repository)).flatten.length =
      (([[⟨"a", "git@host:alice/a.git"⟩, ⟨"b", "git@host:alice/b.git"⟩],
         [⟨"c", "git@host:alice/c.git"⟩]] : List (List Repository)).map
        List.length).sum :=
  get_repositories_yields_all_pages none
    ⟨true,
     [.ok [⟨"a", "git@host:alice/a.git"⟩, ⟨"b", "git@host:alice/b.git"⟩],
      .ok [⟨"c", "git@host:alice/c.git"⟩]],
     .error "unused"⟩
    [[⟨"a", "git@host:alice/a.git"⟩, ⟨"b", "git@host:alice/b.git"⟩],
     [⟨"c", "git@host:alice/c.git"⟩]] rfl rfl

/-- C9: if get_repositories returns Ok, then the subprocess ran with a
success status, every page of the captured stream had already parsed
successfully (the code collects all pages eagerly before returning), and
the returned value is the fully materialized flattening of those pages —
so consuming the returned sequence can never hit a parse error. -/
theorem get_repositories_prevalidated (user : Option String)
    (run_gh : Except String GhApiResult) (l : List Repository)
    (h : get_repositories user run_gh = .ok l) :
    ∃ out pages, run_gh = .ok out ∧ out.statusSuccess = true ∧
      collectPages out.pagesParse = .ok pages ∧ l = pages.flatten ∧
      ∀ p ∈ out.pagesParse, p.isOk = true := by
  match run_gh with
  | .error ioe => simp [get_repositories] at h
  | .ok out =>
    cases hs : out.statusSuccess with
    | false =>
      cases he : out.errorParse <;> simp [get_repositories, hs, he] at h
    | true =>
      cases hcp : collectPages out.pagesParse with
      | error pe => simp [get_repositories, hs, hcp] at h
      | ok pages =>
        refine ⟨out, pages, rfl, hs, hcp, ?_, collectPages_ok_mem _ _ hcp⟩
        simp [get_repositories, hs, hcp] at h
        exact h.symm

/-- Witness for C9 at a concrete successful listing of one page. -/
theorem get_repositories_prevalidated_witness :
    ∃ out pages,
      (.ok ⟨true, [.ok [⟨"a", "ua"⟩]], .error "unused"⟩ :
          Except String GhApiResult) = .ok out ∧
      out.statusSuccess = true ∧
      collectPages out.pagesParse = .ok pages ∧
      ([⟨"a", "ua"⟩] : List Repository) = pages.flatten ∧
      ∀ p ∈ out.pagesParse, p.isOk = true :=
  get_repositories_prevalidated none
    (.ok ⟨true, [.ok [⟨"a", "ua"⟩]], .error "unused"⟩) [⟨"a", "ua"⟩] rfl

/-! ## Shared lemmas about the Process Driver -/

/-- Inversion for a successful git_clone: the metadata read yielded some
mode m, and the result is exactly the hook written at
path/hooks/pre-receive with the fixed script and mode m with the three
execute bits or-ed in. -/
theorem git_clone_ok_inv (path : Path) (url : String) (env : CloneEnv)
    (res : CloneResult) (h : git_clone path url env = .ok res) :
    ∃ m, env.hookMetadataMode = .ok m ∧
      res = ⟨path ++ ["hooks", "pre-receive"], hookScript, m ||| 0o111⟩ := by
  cases hg : env.gitCloneStatus <;>
    cases hc : env.createHook <;>
      cases hw : env.writeHook <;>
        cases hm : env.hookMetadataMode <;>
          cases hs : env.setPermissions <;>
            simp [git_clone, hg, hc, hw, hm, hs] at h
  exact ⟨_, rfl, h.symm⟩

/-- A failing step among creating, writing, inspecting or chmod-ing the
hook file makes git_clone fail. -/
theorem git_clone_err_of_step_err (path : Path) (url : String) (env : CloneEnv)
    (h : env.createHook.isOk = false ∨ env.writeHook.isOk = false ∨
         env.hookMetadataMode.isOk = false ∨ env.setPermissions.isOk = false) :
    (git_clone path url env).isOk = false := by
  cases hg : env.gitCloneStatus <;>
    cases hc : env.createHook <;>
      cases hw : env.writeHook <;>
        cases hm : env.hookMetadataMode <;>
          cases hs : env.setPermissions <;>
            simp [git_clone, hg, hc, hw, hm, hs, Except.isOk, Except.toBool] at h ⊢

/-- The bits of 73 = 0o111 are exactly positions 0, 3 and 6 (the unix
execute bits for other, group and owner). -/
theorem testBit_octal111 (i : Nat) :
    Nat.testBit 0o111 i = decide (i = 0 ∨ i = 3 ∨ i = 6) := by
  by_cases h : i < 7
  · interval_cases i <;> decide
  · have h7 : 0o111 < 2 ^ i := by
      calc (0o111 : Nat) < 2 ^ 7 := by norm_num
      _ ≤ 2 ^ i := Nat.pow_le_pow_right (by norm_num) (by omega)
    rw [Nat.testBit_lt_two_pow h7]
    simp
    omega

/-- Or-ing a mask into a value sets every bit of the mask. -/
theorem lor_land_self (m n : Nat) : (m ||| n) &&& n = n :=
  Nat.eq_of_testBit_eq fun i => by
    rw [Nat.testBit_land, Nat.testBit_lor]
    cases Nat.testBit n i <;> simp

/-! ## Claim theorems for the Process Driver -/

/-- C5: whenever git_clone succeeds, the hook file has been written at
the hook directory of the new mirror (path/hooks/pre-receive), its
content is the fixed script — which states the explanatory rejection
message and ends by exiting with the non-zero status 1 — and its mode has
all three execute bits set; and if creating the hook file, writing it,
reading its metadata or setting its permissions fails, git_clone fails. -/
theorem git_clone_installs_reject_hook (path : Path) (url : String) (env : CloneEnv) :
    (∀ res, git_clone path url env = .ok res →
      res.hookPath = path ++ ["hooks", "pre-receive"] ∧
      res.hookContent = hookScript ∧
      (∃ pre, res.hookContent = pre ++ "exit 1\n") ∧
      (∃ a b, res.hookContent = a ++ "Pushing to this repository is forbidden." ++ b) ∧
      res.hookMode &&& 0o111 = 0o111) ∧
    ((env.createHook.isOk = false ∨ env.writeHook.isOk = false ∨
      env.hookMetadataMode.isOk = false ∨ env.setPermissions.isOk = false) →
      (git_clone path url env).isOk = false) := by
  have hexit : hookScript =
      "#!/bin/sh\n\necho \"Pushing to this repository is forbidden.\"\necho \"This is a mirror of a GitHub repository. Push there instead.\"\n" ++
      "exit 1\n" := by decide
  have hmsg : hookScript =
      "#!/bin/sh\n\necho \"" ++ "Pushing to this repository is forbidden." ++
      "\"\necho \"This is a mirror of a GitHub repository. Push there instead.\"\nexit 1\n" := by
    decide
  constructor
  · intro res h
    obtain ⟨m, _, hres⟩ := git_clone_ok_inv path url env res h
    subst hres
    exact ⟨rfl, rfl, ⟨_, hexit⟩, ⟨_, _, hmsg⟩, lor_land_self m 0o111⟩
  · exact git_clone_err_of_step_err path url env

/-- Witness for C5: a fully successful environment yields the executable
hook, and an environment whose hook creation fails makes the clone fail. -/
theorem git_clone_installs_reject_hook_witness :
    ((⟨["m", "hooks", "pre-receive"], hookScript, 0o755⟩ : CloneResult).hookPath =
        ["m"] ++ ["hooks", "pre-receive"] ∧
      (⟨["m", "hooks", "pre-receive"], hookScript, 0o755⟩ : CloneResult).hookContent =
        hookScript ∧
      (∃ pre, (⟨["m", "hooks", "pre-receive"], hookScript,
          0o755⟩ : CloneResult).hookContent = pre ++ "exit 1\n") ∧
      (∃ a b, (⟨["m", "hooks", "pre-receive"], hookScript,
          0o755⟩ : CloneResult).hookContent =
        a ++ "Pushing to this repository is forbidden." ++ b) ∧
      (⟨["m", "hooks", "pre-receive"], hookScript,
          0o755⟩ : CloneResult).hookMode &&& 0o111 = 0o111) ∧
    (git_clone ["m"] "u" ⟨.ok true, .error "permission denied", .ok (), .ok 0o644,
        .ok ()⟩).isOk = false := by
  refine ⟨?_, ?_⟩
  · exact (git_clone_installs_reject_hook ["m"] "u"
      ⟨.ok true, .ok (), .ok (), .ok 0o644, .ok ()⟩).1
      ⟨["m", "hooks", "pre-receive"], hookScript, 0o755⟩ rfl
  · exact (git_clone_installs_reject_hook ["m"] "u"
      ⟨.ok true, .error "permission denied", .ok (), .ok 0o644, .ok ()⟩).2
      (Or.inl rfl)

/-- C10: the chmod step computes the new mode as the metadata mode or-ed
with 0o111: the three execute bits (positions 0, 3, 6) are set in the
resulting hook mode, and every other bit of the mode is exactly as the
filesystem assigned it at creation. -/
theorem hook_chmod_adds_only_exec_bits (path : Path) (url : String) (env : CloneEnv)
    (m : Nat) (res : CloneResult)
    (hm : env.hookMetadataMode = .ok m)
    (h : git_clone path url env = .ok res) :
    res.hookMode = m ||| 0o111 ∧
    Nat.testBit res.hookMode 0 = true ∧
    Nat.testBit res.hookMode 3 = true ∧
    Nat.testBit res.hookMode 6 = true ∧
    ∀ i, ¬(i = 0 ∨ i = 3 ∨ i = 6) →
      Nat.testBit res.hookMode i = Nat.testBit m i := by
  obtain ⟨m2, hm2, hres⟩ := git_clone_ok_inv path url env res h
  rw [hm] at hm2
  cases hm2
  subst hres
  refine ⟨rfl, ?_, ?_, ?_, ?_⟩
  · simp [Nat.testBit_lor, testBit_octal111]
  · simp [Nat.testBit_lor, testBit_octal111]
  · simp [Nat.testBit_lor, testBit_octal111]
  · intro i hi
    rw [Nat.testBit_lor, testBit_octal111]
    simp [hi]

/-- Witness for C10: with creation mode 0o644 the hook mode becomes
0o755; bit 5 (group write, for example) is untouched. -/
theorem hook_chmod_adds_only_exec_bits_witness :
    (⟨["m", "hooks", "pre-receive"], hookScript, 0o755⟩ : CloneResult).hookMode =
      0o644 ||| 0o111 ∧
    Nat.testBit (⟨["m", "hooks", "pre-receive"], hookScript,
        0o755⟩ : CloneResult).hookMode 0 = true ∧
    Nat.testBit (⟨["m", "hooks", "pre-receive"], hookScript,
        0o755⟩ : CloneResult).hookMode 3 = true ∧
    Nat.testBit (⟨["m", "hooks", "pre-receive"], hookScript,
        0o755⟩ : CloneResult).hookMode 6 = true ∧
    ∀ i, ¬(i = 0 ∨ i = 3 ∨ i = 6) →
      Nat.testBit (⟨["m", "hooks", "pre-receive"], hookScript,
          0o755⟩ : CloneResult).hookMode i = Nat.testBit 0o644 i :=
  hook_chmod_adds_only_exec_bits ["m"] "u"
    ⟨.ok true, .ok (), .ok (), .ok 0o644, .ok ()⟩ 0o644
    ⟨["m", "hooks", "pre-receive"], hookScript, 0o755⟩ rfl rfl

/-! ## Shared lemmas about the Reconciler -/

/-- In dry-run mode one loop iteration only logs: the descriptor goes to
stderr, the status line to stdout, and nothing else changes. -/
theorem processRepo_dry (cfg : RunCfg) (root : Path) (st : RunState)
    (r : Repository) (hdry : cfg.dryRun = true) :
    processRepo cfg root st r =
      ({ st with trace := ⟨st.trace.stdoutLines ++
            [if repoPath root r ∈ st.dirs then "updating " ++ r.name
             else "cloning " ++ r.name],
          st.trace.stderrLines ++ [repoDebug r],
          st.trace.invocations⟩ }, none) := by
  by_cases hmem : repoPath root r ∈ st.dirs <;> simp [processRepo, hdry, hmem]

/-- A real-run iteration on an existing directory invokes git_update and,
when that returns Ok, succeeds having printed the updating line and
recorded the invocation, without touching the directory set. -/
theorem processRepo_wet_update_ok (cfg : RunCfg) (root : Path) (st : RunState)
    (r : Repository) (hdry : cfg.dryRun = false)
    (hmem : repoPath root r ∈ st.dirs)
    (h : git_update (repoPath root r) (cfg.updateEnv r) = .ok ()) :
    processRepo cfg root st r =
      ({ st with trace := ⟨st.trace.stdoutLines ++ ["updating " ++ r.name],
          st.trace.stderrLines,
          st.trace.invocations ++ [.update (repoPath root r)]⟩ }, none) := by
  simp [processRepo, hdry, hmem, h]

/-- A real-run iteration on an existing directory propagates a git_update
failure, after having printed the updating line and recorded the
invocation. -/
theorem processRepo_wet_update_err (cfg : RunCfg) (root : Path) (st : RunState)
    (r : Repository) (e : AnyhowError) (hdry : cfg.dryRun = false)
    (hmem : repoPath root r ∈ st.dirs)
    (h : git_update (repoPath root r) (cfg.updateEnv r) = .error e) :
    processRepo cfg root st r =
      ({ st with trace := ⟨st.trace.stdoutLines ++ ["updating " ++ r.name],
          st.trace.stderrLines,
          st.trace.invocations ++ [.update (repoPath root r)]⟩ }, some e) := by
  simp [processRepo, hdry, hmem, h]

/-- A real-run iteration on a missing directory invokes git_clone and,
when that returns Ok, succeeds having printed the cloning line, recorded
the invocation, and gained the new mirror directory. -/
theorem processRepo_wet_clone_ok (cfg : RunCfg) (root : Path) (st : RunState)
    (r : Repository) (res : CloneResult) (hdry : cfg.dryRun = false)
    (hmem : repoPath root r ∉ st.dirs)
    (h : git_clone (repoPath root r) r.ssh_url (cfg.cloneEnv r) = .ok res) :
    processRepo cfg root st r =
      (⟨st.dirs ++ [repoPath root r],
        ⟨st.trace.stdoutLines ++ ["cloning " ++ r.name],
         st.trace.stderrLines,
         st.trace.invocations ++ [.clone (repoPath root r) r.ssh_url]⟩⟩, none) := by
  simp [processRepo, hdry, hmem, h]

/-- A real-run iteration on a missing directory propagates a git_clone
failure, after having printed the cloning line and recorded the
invocation; no directory is gained. -/
theorem processRepo_wet_clone_err (cfg : RunCfg) (root : Path) (st : RunState)
    (r : Repository) (e : AnyhowError) (hdry : cfg.dryRun = false)
    (hmem : repoPath root r ∉ st.dirs)
    (h : git_clone (repoPath root r) r.ssh_url (cfg.cloneEnv r) = .error e) :
    processRepo cfg root st r =
      ({ st with trace := ⟨st.trace.stdoutLines ++ ["cloning " ++ r.name],
          st.trace.stderrLines,
          st.trace.invocations ++ [.clone (repoPath root r) r.ssh_url]⟩ }, some e) := by
  simp [processRepo, hdry, hmem, h]

/-- Every loop iteration, in every mode and whatever the external world
does, appends exactly one status line to stdout: the updating line when
the directory exists, the cloning line otherwise. -/
theorem processRepo_stdout (cfg : RunCfg) (root : Path) (st : RunState)
    (r : Repository) :
    ((processRepo cfg root st r).1).trace.stdoutLines =
      st.trace.stdoutLines ++
        [if repoPath root r ∈ st.dirs then "updating " ++ r.name
         else "cloning " ++ r.name] := by
  by_cases hdry : cfg.dryRun <;> by_cases hmem : repoPath root r ∈ st.dirs <;>
    simp [processRepo, hdry, hmem]
  · cases git_update (repoPath root r) (cfg.updateEnv r) <;> simp
  · cases git_clone (repoPath root r) r.ssh_url (cfg.cloneEnv r) <;> simp

/-- Every loop iteration appends exactly the matching subprocess
invocation in a real run, and none in a dry run. -/
theorem processRepo_invocations (cfg : RunCfg) (root : Path) (st : RunState)
    (r : Repository) :
    ((processRepo cfg root st r).1).trace.invocations =
      st.trace.invocations ++
        (if cfg.dryRun then []
         else [if repoPath root r ∈ st.dirs then Invocation.update (repoPath root r)
               else Invocation.clone (repoPath root r) r.ssh_url]) := by
  by_cases hdry : cfg.dryRun <;> by_cases hmem : repoPath root r ∈ st.dirs <;>
    simp [processRepo, hdry, hmem]
  · cases git_update (repoPath root r) (cfg.updateEnv r) <;> simp
  · cases git_clone (repoPath root r) r.ssh_url (cfg.cloneEnv r) <;> simp

/-- A dry run of the whole loop only logs: status lines for every
descriptor on stdout, every descriptor on stderr, no invocation, no
directory change, no failure. -/
theorem mainLoop_dry (cfg : RunCfg) (root : Path) (hdry : cfg.dryRun = true) :
    ∀ (repos : List Repository) (st : RunState),
      mainLoop cfg root st repos =
        ({ st with trace := ⟨st.trace.stdoutLines ++ repos.map (fun r =>
              if repoPath root r ∈ st.dirs then "updating " ++ r.name
              else "cloning " ++ r.name),
            st.trace.stderrLines ++ repos.map repoDebug,
            st.trace.invocations⟩ }, none) := by
  intro repos
  induction repos with
  | nil => intro st; simp [mainLoop]
  | cons r rest ih =>
    intro st
    simp only [mainLoop, processRepo_dry cfg root st r hdry]
    rw [ih]
    simp

/-! ## Claim theorems for the Reconciler -/

/-- C4: every iteration of the reconciliation loop selects exactly one of
the two actions for its descriptor — it appends exactly one status line,
the updating one when root/name is an existing directory and the cloning
one otherwise (and those two labels are distinct, so never both) — and in
a real run it performs exactly the matching single subprocess invocation,
update when the directory exists and clone otherwise. -/
theorem reconcile_selects_exactly_one_action (cfg : RunCfg) (root : Path)
    (st : RunState) (r : Repository) :
    ((processRepo cfg root st r).1).trace.stdoutLines =
      st.trace.stdoutLines ++
        [if repoPath root r ∈ st.dirs then "updating " ++ r.name
         else "cloning " ++ r.name] ∧
    ((processRepo cfg root st r).1).trace.invocations =
      st.trace.invocations ++
        (if cfg.dryRun then []
         else [if repoPath root r ∈ st.dirs then Invocation.update (repoPath root r)
               else Invocation.clone (repoPath root r) r.ssh_url]) ∧
    "updating " ++ r.name ≠ "cloning " ++ r.name := by
  refine ⟨processRepo_stdout cfg root st r, processRepo_invocations cfg root st r, ?_⟩
  intro h
  have h2 := congrArg String.length h
  rw [String.length_append, String.length_append] at h2
  have h3 : "updating ".length = 9 := rfl
  have h4 : "cloning ".length = 8 := rfl
  omega

/-- Witness for C4 at a concrete iteration: a repository without a
directory gets exactly the cloning line and exactly the clone
invocation. -/
theorem reconcile_selects_exactly_one_action_witness :
    ((processRepo
        ⟨false, fun _ => ⟨.ok true, .ok (), .ok (), .ok 0o644, .ok ()⟩,
         fun _ => ⟨.ok true⟩⟩ ["root"] (initState []) ⟨"a", "ua"⟩).1).trace.stdoutLines =
      (initState []).trace.stdoutLines ++
        [if repoPath ["root"] ⟨"a", "ua"⟩ ∈ (initState []).dirs then
            "updating " ++ Repository.name ⟨"a", "ua"⟩
         else "cloning " ++ Repository.name ⟨"a", "ua"⟩] ∧
    ((processRepo
        ⟨false, fun _ => ⟨.ok true, .ok (), .ok (), .ok 0o644, .ok ()⟩,
         fun _ => ⟨.ok true⟩⟩ ["root"] (initState []) ⟨"a", "ua"⟩).1).trace.invocations =
      (initState []).trace.invocations ++
        (if RunCfg.dryRun ⟨false, fun _ => ⟨.ok true, .ok (), .ok (), .ok 0o644, .ok ()⟩,
            fun _ => ⟨.ok true⟩⟩ then []
         else [if repoPath ["root"] ⟨"a", "ua"⟩ ∈ (initState []).dirs then
                  Invocation.update (repoPath ["root"] ⟨"a", "ua"⟩)
               else Invocation.clone (repoPath ["root"] ⟨"a", "ua"⟩)
                      (Repository.ssh_url ⟨"a", "ua"⟩)]) ∧
    "updating " ++ Repository.name ⟨"a", "ua"⟩ ≠
      "cloning " ++ Repository.name ⟨"a", "ua"⟩ :=
  reconcile_selects_exactly_one_action
    ⟨false, fun _ => ⟨.ok true, .ok (), .ok (), .ok 0o644, .ok ()⟩,
     fun _ => ⟨.ok true⟩⟩ ["root"] (initState []) ⟨"a", "ua"⟩

/-- C6: with dry-run enabled, whatever the local directory state and the
external oracles, the loop performs no subprocess invocation and creates
no directory; it emits every descriptor on stderr and the status lines on
stdout, and never fails. -/
theorem dry_run_frame (cfg : RunCfg) (root : Path) (dirs : List Path)
    (repos : List Repository) (hdry : cfg.dryRun = true) :
    ∃ st, mainLoop cfg root (initState dirs) repos = (st, none) ∧
      st.dirs = dirs ∧
      st.trace.invocations = [] ∧
      st.trace.stderrLines = repos.map repoDebug ∧
      st.trace.stdoutLines = repos.map (fun r =>
        if repoPath root r ∈ dirs then "updating " ++ r.name
        else "cloning " ++ r.name) := by
  refine ⟨_, mainLoop_dry cfg root hdry repos (initState dirs), rfl, rfl, ?_, ?_⟩ <;>
    simp [initState]

/-- Witness for C6: a dry run over one present and one absent repository
logs both descriptors to stderr and both status lines to stdout, with no
invocation, no directory change and no failure. -/
theorem dry_run_frame_witness :
    ∃ st,
      mainLoop
        ⟨true, fun _ => ⟨.ok true, .ok (), .ok (), .ok 0o644, .ok ()⟩,
         fun _ => ⟨.ok true⟩⟩ ["root"]
        (initState [["root", "a"]])
        [⟨"a", "git@host:alice/a.git"⟩, ⟨"b", "git@host:alice/b.git"⟩] =
        (st, none) ∧
      st.dirs = [["root", "a"]] ∧
      st.trace.invocations = [] ∧
      st.trace.stderrLines =
        ([⟨"a", "git@host:alice/a.git"⟩,
          ⟨"b", "git@host:alice/b.git"⟩] : List Repository).map repoDebug ∧
      st.trace.stdoutLines =
        ([⟨"a", "git@host:alice/a.git"⟩,
          ⟨"b", "git@host:alice/b.git"⟩] : List Repository).map (fun r =>
          if repoPath ["root"] r ∈ [["root", "a"]] then "updating " ++ r.name
          else "cloning " ++ r.name) :=
  dry_run_frame
    ⟨true, fun _ => ⟨.ok true, .ok (), .ok (), .ok 0o644, .ok ()⟩,
     fun _ => ⟨.ok true⟩⟩ ["root"] [["root", "a"]]
    [⟨"a", "git@host:alice/a.git"⟩, ⟨"b", "git@host:alice/b.git"⟩] rfl

/-- A loop run that returns Ok has printed exactly one status line per
descriptor: the whole sequence was processed. -/
theorem mainLoop_ok_length (cfg : RunCfg) (root : Path) :
    ∀ (repos : List Repository) (st st2 : RunState),
      mainLoop cfg root st repos = (st2, none) →
      st2.trace.stdoutLines.length = st.trace.stdoutLines.length + repos.length := by
  intro repos
  induction repos with
  | nil =>
    intro st st2 h
    simp only [mainLoop] at h
    cases h
    simp
  | cons r rest ih =>
    intro st st2 h
    simp only [mainLoop] at h
    cases hp : processRepo cfg root st r with
    | mk st1 e =>
      rw [hp] at h
      cases e with
      | some e0 => simp at h
      | none =>
        have hlen := ih st1 st2 h
        have hline : st1.trace.stdoutLines =
            st.trace.stdoutLines ++
              [if repoPath root r ∈ st.dirs then "updating " ++ r.name
               else "cloning " ++ r.name] := by
          have := processRepo_stdout cfg root st r
          rw [hp] at this
          exact this
        rw [hline] at hlen
        simp at hlen
        simp [hlen, Nat.add_assoc, Nat.add_comm 1 rest.length]

/-- A loop run that returns an error splits the descriptor sequence: a
processed prefix that all succeeded, the failing descriptor whose
iteration produced exactly the returned state and error, and an untouched
remainder. -/
theorem mainLoop_err_split (cfg : RunCfg) (root : Path) :
    ∀ (repos : List Repository) (st st2 : RunState) (e : AnyhowError),
      mainLoop cfg root st repos = (st2, some e) →
      ∃ pre r post stMid, repos = pre ++ r :: post ∧
        mainLoop cfg root st pre = (stMid, none) ∧
        processRepo cfg root stMid r = (st2, some e) := by
  intro repos
  induction repos with
  | nil =>
    intro st st2 e h
    simp [mainLoop] at h
  | cons r rest ih =>
    intro st st2 e h
    simp only [mainLoop] at h
    cases hp : processRepo cfg root st r with
    | mk st1 eo =>
      rw [hp] at h
      cases eo with
      | some e0 =>
        simp at h
        refine ⟨[], r, rest, st, by simp, rfl, ?_⟩
        rw [hp, h.1, h.2]
      | none =>
        obtain ⟨pre, r2, post, stMid, hsplit, hpre, hfail⟩ := ih st1 st2 e h
        refine ⟨r :: pre, r2, post, stMid, by simp [hsplit], ?_, hfail⟩
        simp only [mainLoop, hp]
        exact hpre

/-- C7: the reconciliation loop stops at the first failing iteration.
If the loop returns Ok, every descriptor received its status line and the
process exits 0. If it returns an error e, the process exits 1 and the
descriptor sequence splits as pre ++ r :: post where the whole prefix pre
was processed successfully, the iteration for r produced exactly the
returned state and the very error e (propagated unmodified), and the
final stdout holds pre.length + 1 status lines — so everything after the
failing descriptor was left unprocessed. -/
theorem main_stops_at_first_failure (cfg : RunCfg) (root : Path)
    (dirs : List Path) (repos : List Repository) (st : RunState) :
    (mainLoop cfg root (initState dirs) repos = (st, none) →
      exitCode none = 0 ∧ st.trace.stdoutLines.length = repos.length) ∧
    (∀ e, mainLoop cfg root (initState dirs) repos = (st, some e) →
      exitCode (some e) = 1 ∧
      ∃ pre r post stMid, repos = pre ++ r :: post ∧
        mainLoop cfg root (initState dirs) pre = (stMid, none) ∧
        processRepo cfg root stMid r = (st, some e) ∧
        st.trace.stdoutLines.length = pre.length + 1) := by
  constructor
  · intro h
    refine ⟨rfl, ?_⟩
    have := mainLoop_ok_length cfg root repos (initState dirs) st h
    simpa [initState] using this
  · intro e h
    obtain ⟨pre, r, post, stMid, hsplit, hpre, hfail⟩ :=
      mainLoop_err_split cfg root repos (initState dirs) st e h
    refine ⟨rfl, pre, r, post, stMid, hsplit, hpre, hfail, ?_⟩
    have hmid := mainLoop_ok_length cfg root pre (initState dirs) stMid hpre
    have hlen2 : st.trace.stdoutLines.length = stMid.trace.stdoutLines.length + 1 := by
      have hline := processRepo_stdout cfg root stMid r
      rw [hfail] at hline
      have h1 : st.trace.stdoutLines = stMid.trace.stdoutLines ++
          [if repoPath root r ∈ stMid.dirs then "updating " ++ r.name
           else "cloning " ++ r.name] := hline
      rw [h1]
      simp
    rw [hlen2]
    simp [initState] at hmid
    omega

/-- Witness for C7 at a concrete failing run: the clone subprocess for
the single descriptor cannot be spawned, the loop returns that error, the
exit code is 1, and exactly one status line was printed. -/
theorem main_stops_at_first_failure_witness :
    exitCode (some ⟨["failed to git clone ua"], .io "spawn failed"⟩) = 1 ∧
    ∃ pre r post stMid,
      ([⟨"a", "ua"⟩] : List Repository) = pre ++ r :: post ∧
      mainLoop
        ⟨false, fun _ => ⟨.error "spawn failed", .ok (), .ok (), .ok 0o644, .ok ()⟩,
         fun _ => ⟨.ok true⟩⟩ ["root"] (initState []) pre = (stMid, none) ∧
      processRepo
        ⟨false, fun _ => ⟨.error "spawn failed", .ok (), .ok (), .ok 0o644, .ok ()⟩,
         fun _ => ⟨.ok true⟩⟩ ["root"] stMid r =
        (⟨[], ⟨["cloning a"], [], [.clone ["root", "a"] "ua"]⟩⟩,
         some ⟨["failed to git clone ua"], .io "spawn failed"⟩) ∧
      (⟨[], ⟨["cloning a"], [], [.clone ["root", "a"] "ua"]⟩⟩ :
          RunState).trace.stdoutLines.length = pre.length + 1 :=
  (main_stops_at_first_failure
    ⟨false, fun _ => ⟨.error "spawn failed", .ok (), .ok (), .ok 0o644, .ok ()⟩,
     fun _ => ⟨.ok true⟩⟩ ["root"] [] [⟨"a", "ua"⟩]
    ⟨[], ⟨["cloning a"], [], [.clone ["root", "a"] "ua"]⟩⟩).2
    ⟨["failed to git clone ua"], .io "spawn failed"⟩ rfl

/-- A real run over repositories with pairwise distinct names, none of
which has a directory yet, in which every clone subprocess succeeds,
clones every repository: it prints a cloning line, records a clone
invocation, and creates the mirror directory, for each descriptor in
order. -/
theorem mainLoop_clones (cfg : RunCfg) (root : Path) (hdry : cfg.dryRun = false) :
    ∀ (repos : List Repository) (st : RunState),
      (repos.map Repository.name).Nodup →
      (∀ r ∈ repos, repoPath root r ∉ st.dirs) →
      (∀ r ∈ repos,
        (git_clone (repoPath root r) r.ssh_url (cfg.cloneEnv r)).isOk = true) →
      mainLoop cfg root st repos =
        (⟨st.dirs ++ repos.map (repoPath root),
          ⟨st.trace.stdoutLines ++ repos.map (fun r => "cloning " ++ r.name),
           st.trace.stderrLines,
           st.trace.invocations ++ repos.map (fun r =>
             Invocation.clone (repoPath root r) r.ssh_url)⟩⟩, none) := by
  intro repos
  induction repos with
  | nil =>
    intro st _ _ _
    simp [mainLoop]
  | cons r rest ih =>
    intro st hnodup hfresh hok
    have hmem : repoPath root r ∉ st.dirs := hfresh r (List.mem_cons_self r rest)
    have hokr := hok r (List.mem_cons_self r rest)
    have hnd : (rest.map Repository.name).Nodup := by
      simp [List.nodup_cons] at hnodup
      exact hnodup.2
    have hnm : r.name ∉ rest.map Repository.name := by
      simp [List.nodup_cons] at hnodup
      simpa using hnodup.1
    cases hc : git_clone (repoPath root r) r.ssh_url (cfg.cloneEnv r) with
    | error e =>
      rw [hc] at hokr
      simp [Except.isOk, Except.toBool] at hokr
    | ok res =>
      have hfresh2 : ∀ r2 ∈ rest, repoPath root r2 ∉ st.dirs ++ [repoPath root r] := by
        intro r2 hr2
        simp only [List.mem_append, List.mem_singleton]
        push_neg
        refine ⟨hfresh r2 (List.mem_cons_of_mem r hr2), ?_⟩
        intro heq
        have hname : r2.name = r.name := by
          have h2 := List.append_cancel_left
            (heq : root ++ [r2.name] = root ++ [r.name])
          simpa using h2
        exact hnm (hname ▸ List.mem_map_of_mem Repository.name hr2)
      have hok2 : ∀ r2 ∈ rest,
          (git_clone (repoPath root r2) r2.ssh_url (cfg.cloneEnv r2)).isOk = true :=
        fun r2 hr2 => hok r2 (List.mem_cons_of_mem r hr2)
      have ihs := ih ⟨st.dirs ++ [repoPath root r],
          ⟨st.trace.stdoutLines ++ ["cloning " ++ r.name],
           st.trace.stderrLines,
           st.trace.invocations ++ [Invocation.clone (repoPath root r) r.ssh_url]⟩⟩
          hnd hfresh2 hok2
      simp only [mainLoop, processRepo_wet_clone_ok cfg root st r res hdry hmem hc]
      rw [ihs]
      simp

/-- A real run over repositories that all have a directory, in which
every update subprocess succeeds, updates every repository: it prints an
updating line and records an update invocation for each descriptor in
order, and changes no directory. -/
theorem mainLoop_updates (cfg : RunCfg) (root : Path) (hdry : cfg.dryRun = false) :
    ∀ (repos : List Repository) (st : RunState),
      (∀ r ∈ repos, repoPath root r ∈ st.dirs) →
      (∀ r ∈ repos,
        (git_update (repoPath root r) (cfg.updateEnv r)).isOk = true) →
      mainLoop cfg root st repos =
        (⟨st.dirs,
          ⟨st.trace.stdoutLines ++ repos.map (fun r => "updating " ++ r.name),
           st.trace.stderrLines,
           st.trace.invocations ++ repos.map (fun r =>
             Invocation.update (repoPath root r))⟩⟩, none) := by
  intro repos
  induction repos with
  | nil =>
    intro st _ _
    simp [mainLoop]
  | cons r rest ih =>
    intro st hmem hok
    have hmemr : repoPath root r ∈ st.dirs := hmem r (List.mem_cons_self r rest)
    have hokr := hok r (List.mem_cons_self r rest)
    cases hu : git_update (repoPath root r) (cfg.updateEnv r) with
    | error e =>
      rw [hu] at hokr
      simp [Except.isOk, Except.toBool] at hokr
    | ok u =>
      cases u
      have ihs := ih ⟨st.dirs,
          ⟨st.trace.stdoutLines ++ ["updating " ++ r.name],
           st.trace.stderrLines,
           st.trace.invocations ++ [Invocation.update (repoPath root r)]⟩⟩
          (fun r2 hr2 => hmem r2 (List.mem_cons_of_mem r hr2))
          (fun r2 hr2 => hok r2 (List.mem_cons_of_mem r hr2))
      simp only [mainLoop, processRepo_wet_update_ok cfg root st r hdry hmemr hu]
      rw [ihs]
      simp

/-- C8: running the reconciler twice against the same repositories and
root, starting from a root holding none of their directories, with
distinct repository names and all subprocesses succeeding, performs a
clone of every repository on the first run (in order, with a cloning
status line each) and an update — never a clone — of every repository on
the second run. -/
theorem two_runs_clone_then_update (cfg1 cfg2 : RunCfg) (root : Path)
    (dirs : List Path) (repos : List Repository)
    (h1 : cfg1.dryRun = false) (h2 : cfg2.dryRun = false)
    (hnodup : (repos.map Repository.name).Nodup)
    (hfresh : ∀ r ∈ repos, repoPath root r ∉ dirs)
    (hclone : ∀ r ∈ repos,
      (git_clone (repoPath root r) r.ssh_url (cfg1.cloneEnv r)).isOk = true)
    (hupd : ∀ r ∈ repos,
      (git_update (repoPath root r) (cfg2.updateEnv r)).isOk = true) :
    ∃ st1 st2,
      mainLoop cfg1 root (initState dirs) repos = (st1, none) ∧
      st1.trace.stdoutLines = repos.map (fun r => "cloning " ++ r.name) ∧
      st1.trace.invocations = repos.map (fun r =>
        Invocation.clone (repoPath root r) r.ssh_url) ∧
      mainLoop cfg2 root (initState st1.dirs) repos = (st2, none) ∧
      st2.trace.stdoutLines = repos.map (fun r => "updating " ++ r.name) ∧
      st2.trace.invocations = repos.map (fun r =>
        Invocation.update (repoPath root r)) := by
  have hr1 := mainLoop_clones cfg1 root h1 repos (initState dirs) hnodup
    (by simpa [initState] using hfresh) hclone
  have hr2 := mainLoop_updates cfg2 root h2 repos
    (initState (dirs ++ repos.map (repoPath root)))
    (fun r hr => by
      simp [initState]
      exact Or.inr ⟨r, hr, rfl⟩)
    hupd
  refine ⟨⟨dirs ++ repos.map (repoPath root),
      ⟨repos.map (fun r => "cloning " ++ r.name), [],
       repos.map (fun r => Invocation.clone (repoPath root r) r.ssh_url)⟩⟩,
    ⟨dirs ++ repos.map (repoPath root),
      ⟨repos.map (fun r => "updating " ++ r.name), [],
       repos.map (fun r => Invocation.update (repoPath root r))⟩⟩,
    ?_, rfl, rfl, ?_, rfl, rfl⟩
  · simpa [initState] using hr1
  · simpa [initState] using hr2

/-- Witness for C8: two fresh repositories are cloned on the first run
and updated on the second. -/
theorem two_runs_clone_then_update_witness :
    ∃ st1 st2,
      mainLoop
        ⟨false, fun _ => ⟨.ok true, .ok (), .ok (), .ok 0o644, .ok ()⟩,
         fun _ => ⟨.ok true⟩⟩ ["root"] (initState [])
        [⟨"a", "ua"⟩, ⟨"b", "ub"⟩] = (st1, none) ∧
      st1.trace.stdoutLines =
        ([⟨"a", "ua"⟩, ⟨"b", "ub"⟩] : List Repository).map
          (fun r => "cloning " ++ r.name) ∧
      st1.trace.invocations =
        ([⟨"a", "ua"⟩, ⟨"b", "ub"⟩] : List Repository).map (fun r =>
          Invocation.clone (repoPath ["root"] r) r.ssh_url) ∧
      mainLoop
        ⟨false, fun _ => ⟨.ok true, .ok (), .ok (), .ok 0o644, .ok ()⟩,
         fun _ => ⟨.ok true⟩⟩ ["root"] (initState st1.dirs)
        [⟨"a", "ua"⟩, ⟨"b", "ub"⟩] = (st2, none) ∧
      st2.trace.stdoutLines =
        ([⟨"a", "ua"⟩, ⟨"b", "ub"⟩] : List Repository).map
          (fun r => "updating " ++ r.name) ∧
      st2.trace.invocations =
        ([⟨"a", "ua"⟩, ⟨"b", "ub"⟩] : List Repository).map (fun r =>
          Invocation.update (repoPath ["root"] r)) :=
  two_runs_clone_then_update
    ⟨false, fun _ => ⟨.ok true, .ok (), .ok (), .ok 0o644, .ok ()⟩,
     fun _ => ⟨.ok true⟩⟩
    ⟨false, fun _ => ⟨.ok true, .ok (), .ok (), .ok 0o644, .ok ()⟩,
     fun _ => ⟨.ok true⟩⟩ ["root"] [] [⟨"a", "ua"⟩, ⟨"b", "ub"⟩]
    rfl rfl (by decide) (by decide) (by decide) (by decide)

end GhMirror
